import Mathlib

/-!
Shallow embedding of `src/dash_ridership_dashboard.py` (lwyay/Ridership-Dashboard).

The script loads a tab-separated ridership table, coerces the `Date` column
(`pd.to_datetime(..., errors='coerce')`, line 13), strips commas from the
numeric columns and casts them to integers (lines 16-17), derives `Month`,
`Year`, `Day` columns from the date (lines 20-22), left-merges a holiday
table keyed by date and sets a `Holiday` = "Yes"/"No" column (lines 25-33),
and wires two callbacks: `update_graph` (filtering stage, lines 123-130) and
`update_table` (lines 212-263).

Machine integers are modelled as `Int`/`Nat`; pandas `NaT`/`NaN` dates are
modelled as `Option Date` (a missing date propagates to missing `Year`,
`Month`, `Day`, and an equality comparison against a missing value is false,
exactly as NaN comparisons are false in pandas filters).
-/

/-- A calendar date (pandas `Timestamp`, date-valued). -/
structure Date where
  year : Nat
  month : Nat
  day : Nat
deriving DecidableEq, Repr

/-- English month names, as produced by `Series.dt.month_name()` (line 20). -/
def monthNames : List String :=
  ["January", "February", "March", "April", "May", "June",
   "July", "August", "September", "October", "November", "December"]

/-- Month name of month number `m` (1-12). -/
def monthName (m : Nat) : String := monthNames.getD (m - 1) ""

/-- English day names indexed with 0 = Sunday. -/
def dayNames : List String :=
  ["Sunday", "Monday", "Tuesday", "Wednesday", "Thursday", "Friday", "Saturday"]

/-- Sakamoto's day-of-week algorithm (0 = Sunday), modelling
`Series.dt.day_name()` (line 22) as a pure function of the date. -/
def dayOfWeekIdx (dt : Date) : Nat :=
  let t : List Nat := [0, 3, 2, 5, 0, 3, 5, 1, 4, 6, 2, 4]
  let y := if dt.month < 3 then dt.year - 1 else dt.year
  (y + y / 4 - y / 100 + y / 400 + t.getD (dt.month - 1) 0 + dt.day) % 7

/-- English day-of-week name of a date (line 22). -/
def dayName (dt : Date) : String := dayNames.getD (dayOfWeekIdx dt) ""

/-- Left-pad the decimal form of `n` to two digits. -/
def pad2 (n : Nat) : String := if n < 10 then "0" ++ toString n else toString n

/-- Left-pad the decimal form of `n` to four digits. -/
def pad4 (n : Nat) : String :=
  if n < 10 then "000" ++ toString n
  else if n < 100 then "00" ++ toString n
  else if n < 1000 then "0" ++ toString n
  else toString n

/-- `Timestamp.strftime('%Y-%m-%d')` (lines 235, 237, 253, 255). -/
def fmtDate (dt : Date) : String :=
  pad4 dt.year ++ "-" ++ pad2 dt.month ++ "-" ++ pad2 dt.day

/-- Lexicographic (chronological) strict order on dates. -/
def dateLt (a b : Date) : Prop :=
  a.year < b.year ∨ (a.year = b.year ∧
    (a.month < b.month ∨ (a.month = b.month ∧ a.day < b.day)))

instance : DecidablePred (fun p : Date × Date => dateLt p.1 p.2) := by
  intro p; unfold dateLt; infer_instance

instance (a b : Date) : Decidable (dateLt a b) := by
  unfold dateLt; infer_instance

/-- One row of the in-memory table after loading and enrichment.
`date = none` models a `NaT` produced by `errors='coerce'` (line 13).
`holidayName`/`holiday` model the merged `Holiday_Name` and `Holiday`
columns (lines 32-33); right after normalization they are `none`/"No"
(no `Holiday_Name` column yet). The derived `Year`/`Month`/`Day` columns
(lines 20-22) are pure functions of `date` and are modelled as the
accessor functions below. -/
structure Record where
  date : Option Date
  bus : Int
  rail : Int
  total : Int
  holidayName : Option String
  holiday : String
deriving DecidableEq, Repr

/-- The `Year` column (line 21); `none` models the NaN year of a NaT date. -/
def recYear (r : Record) : Option Nat := r.date.map (·.year)

/-- The `Month` column (line 20). -/
def recMonthName (r : Record) : Option String :=
  r.date.map (fun d => monthName d.month)

/-- The `Day` column (line 22). -/
def recDayName (r : Record) : Option String := r.date.map dayName

/-- `row['Date'].strftime('%Y-%m-%d')`; the "NaT" placeholder is unreachable
in the branches that format, which only see year-filtered records. -/
def recDateStr (r : Record) : String :=
  match r.date with
  | some d => fmtDate d
  | none => "NaT"

/-- The `Day` cell put into a summary row. -/
def recDayStr (r : Record) : String :=
  match r.date with
  | some d => dayName d
  | none => "NaT"

/-! ### Normalizer: lines 10-22 -/

/-- One raw data row of the tab-separated source table (after the skipped
title line): the four columns `Date`, `Bus`, `Rail`, `Grand Total` as text. -/
structure RawRow where
  dateText : String
  busText : String
  railText : String
  totalText : String
deriving DecidableEq, Repr

/-- `s.str.replace(',', '')` (line 17): delete every comma. -/
def stripCommas (s : String) : String :=
  String.mk (s.toList.filter (fun c => c ≠ ','))

/-- Value of a non-empty all-digit character list; `none` otherwise. -/
def digitsVal (cs : List Char) : Option Nat :=
  if cs ≠ [] ∧ cs.all (·.isDigit) then
    some (cs.foldl (fun a c => 10 * a + (c.toNat - '0'.toNat)) 0)
  else none

/-- Python `int(s)` on a string (the element conversion of `.astype(int)`,
line 17): an optional sign followed by a non-empty digit string; `none`
models the raised `ValueError`. (Python's `int` additionally tolerates
surrounding whitespace and underscore digit grouping; the source columns
contain neither.) -/
def pyInt (s : String) : Option Int :=
  match s.toList with
  | [] => none
  | c :: rest =>
    if c = '-' then (digitsVal rest).map (fun n => -(n : Int))
    else if c = '+' then (digitsVal rest).map (fun n => (n : Int))
    else (digitsVal (c :: rest)).map (fun n => (n : Int))

/-- Numeric parsing of a count cell (line 17): strip commas, then convert. -/
def parseCount (s : String) : Option Int := pyInt (stripCommas s)

/-- Spec-side predicate: an optionally signed non-empty digit string.
Used only to state what `parseCount` accepts. -/
def isSignedIntString (s : String) : Bool :=
  match s.toList with
  | [] => false
  | c :: rest =>
    if c = '-' then !rest.isEmpty && rest.all (·.isDigit)
    else if c = '+' then !rest.isEmpty && rest.all (·.isDigit)
    else (c :: rest).all (·.isDigit)

/-- `pd.to_datetime(s, errors='coerce')` (line 13), abstracting the pandas
date parser on this dataset's ISO `YYYY-MM-DD` texts: any text that is not
a valid date yields `none` (NaT) instead of an error. -/
def parseDate (s : String) : Option Date :=
  match s.splitOn "-" with
  | [ys, ms, ds] =>
    match digitsVal ys.toList, digitsVal ms.toList, digitsVal ds.toList with
    | some y, some m, some d =>
      if 1 ≤ m ∧ m ≤ 12 ∧ 1 ≤ d ∧ d ≤ 31 then some ⟨y, m, d⟩ else none
    | _, _, _ => none
  | _ => none

/-- Normalize one raw row (lines 13-22): the date is coerced (never fails),
each count column must convert (`astype(int)` raises otherwise, which
`none` models). -/
def normalizeRow (row : RawRow) : Option Record :=
  match parseCount row.busText, parseCount row.railText, parseCount row.totalText with
  | some b, some r, some t => some ⟨parseDate row.dateText, b, r, t, none, "No"⟩
  | _, _, _ => none

/-- Load and normalize the whole table (lines 10-22): fails only when a
count cell fails to convert; bad dates coerce to `none` row-locally. -/
def loadRecords : List RawRow → Option (List Record)
  | [] => some []
  | row :: rest =>
    match normalizeRow row, loadRecords rest with
    | some r, some rs => some (r :: rs)
    | _, _ => none

/-! ### Calendar enricher: lines 25-33 -/

/-- Set the merged `Holiday_Name` field of a record. -/
def setHolidayName (r : Record) (h : Option String) : Record :=
  { r with holidayName := h }

/-- `pd.merge(data, holiday_data, on='Date', how='left')` (line 32) with the
holiday table given as (date, name) pairs: a record whose date matches no
holiday row keeps a single copy with no name; a record with matches yields
one output row per matching holiday row (pandas left-merge semantics; the
source's holiday table is built from a dict, so its dates are distinct and
each record yields exactly one row). A `NaT` date matches nothing. -/
def mergeHolidays (hl : List (Date × String)) (records : List Record) : List Record :=
  records.flatMap (fun r =>
    match r.date with
    | none => [setHolidayName r none]
    | some d =>
      match hl.filter (fun p => p.1 = d) with
      | [] => [setHolidayName r none]
      | hs => hs.map (fun p => setHolidayName r (some p.2)))

/-- `data['Holiday'] = data['Holiday_Name'].notna().replace(...)` (line 33). -/
def setHolidayFlag (r : Record) : Record :=
  { r with holiday := if r.holidayName.isSome then "Yes" else "No" }

/-- The enrichment stage (lines 32-33): merge the holiday table, then set
the Yes/No flag column. -/
def enrichWithHolidays (hl : List (Date × String)) (records : List Record) : List Record :=
  (mergeHolidays hl records).map setHolidayFlag

/-- First holiday-table entry for a date, if any (`none` for a NaT date). -/
def lookupHoliday (hl : List (Date × String)) (d : Option Date) : Option String :=
  match d with
  | none => none
  | some d => (hl.find? (fun p => p.1 = d)).map (·.2)

/-- Enrichment of a single record when the holiday table's dates are
distinct: overwrite both holiday fields from the date lookup. -/
def enrichOne (hl : List (Date × String)) (r : Record) : Record :=
  { r with holidayName := lookupHoliday hl r.date,
           holiday := if (lookupHoliday hl r.date).isSome then "Yes" else "No" }

/-! ### Aggregator: `update_table`, lines 212-263 -/

/-- Python truthiness of the year dropdown value (`if selected_year`):
`None` and `0` are falsy. -/
def truthyYear : Option Nat → Bool
  | none => false
  | some y => y ≠ 0

/-- Python truthiness of the month dropdown value: `None` and `""` are falsy. -/
def truthyMonth : Option String → Bool
  | none => false
  | some s => s ≠ ""

/-- `data[data['Year'] == selected_year]` (lines 228, 245): a NaN year
(NaT date) never matches. -/
def yearFilter (records : List Record) (y : Nat) : List Record :=
  records.filter (fun r => recYear r = some y)

/-- `data[(data['Year'] == y) & (data['Month'] == m)]` (line 245). -/
def yearMonthFilter (records : List Record) (y : Nat) (m : String) : List Record :=
  records.filter (fun r => recYear r = some y ∧ recMonthName r = some m)

/-- `df['Grand Total'].sum()` (lines 221, 251). -/
def sumTotals (records : List Record) : Int := (records.map (·.total)).sum

/-- The distinct valid years of the record set (NaN years excluded, as
`groupby` drops NaN keys). -/
def distinctYears (records : List Record) : List Nat :=
  (records.filterMap recYear).dedup

/-- `data.groupby('Year').agg({'Grand Total': 'sum'})` (line 221): one
(year, total) row per distinct valid year, keys sorted ascending. -/
def groupYearly (records : List Record) : List (Nat × Int) :=
  ((distinctYears records).insertionSort (· ≤ ·)).map
    (fun y => (y, sumTotals (yearFilter records y)))

/-- `df['Grand Total'].idxmax()` then `.loc` (lines 232, 249): the first
record attaining the maximal value of `f`, `none` on an empty frame. -/
def firstMaxBy (f : Record → Int) : List Record → Option Record
  | [] => none
  | r :: rs => some (rs.foldl (fun best x => if f x > f best then x else best) r)

/-- `df['Grand Total'].idxmin()` then `.loc` (lines 233, 250). -/
def firstMinBy (f : Record → Int) : List Record → Option Record
  | [] => none
  | r :: rs => some (rs.foldl (fun best x => if f x < f best then x else best) r)

/-- One row of the summary `DataFrame` (columns Insight/Date/Day/Ridership). -/
structure SRow where
  insight : String
  dateStr : String
  day : String
  ridership : Int
deriving DecidableEq, Repr

/-- The (data, columns) pair returned by `update_table`: the yearly-totals
shape (columns Year / Total Ridership, line 224), the summary shape
(columns Insight/Date/Day/Ridership, lines 241, 260), or empty data with
the default columns (lines 230, 247, 263). -/
inductive TableResult where
  | yearly (rows : List (Nat × Int))
  | summary (rows : List SRow)
  | emptyDefault
deriving DecidableEq, Repr

/-- The "Busiest Day" row (lines 235-236, 253-254). -/
def busiestRow (r : Record) : SRow :=
  ⟨"Busiest Day", recDateStr r, recDayStr r, r.total⟩

/-- The "Quietest Day" row (lines 237-238, 255-256). -/
def quietestRow (r : Record) : SRow :=
  ⟨"Quietest Day", recDateStr r, recDayStr r, r.total⟩

/-- `update_table(selected_year, selected_month)` (lines 212-263), with the
module-level `data` passed explicitly. The `match` on `firstMaxBy`/
`firstMinBy` is exhaustive: both are `none` exactly when the filtered frame
is empty, which is the `df.empty` early return (lines 229-230, 246-247). -/
def update_table (selectedYear : Option Nat) (selectedMonth : Option String)
    (records : List Record) : TableResult :=
  if !truthyYear selectedYear && !truthyMonth selectedMonth then
    .yearly (groupYearly records)
  else if truthyYear selectedYear && !truthyMonth selectedMonth then
    let yd := yearFilter records (selectedYear.getD 0)
    match firstMaxBy (·.total) yd, firstMinBy (·.total) yd with
    | some b, some q => .summary [busiestRow b, quietestRow q]
    | _, _ => .emptyDefault
  else if truthyYear selectedYear && truthyMonth selectedMonth then
    let md := yearMonthFilter records (selectedYear.getD 0) (selectedMonth.getD "")
    match firstMaxBy (·.total) md, firstMinBy (·.total) md with
    | some b, some q =>
      .summary [busiestRow b, quietestRow q,
                ⟨"Monthly Total", "N/A", "N/A", sumTotals md⟩]
    | _, _ => .emptyDefault
  else .emptyDefault

/-! ### Chart-data selection: the filter stage of `update_graph`, lines 123-130 -/

/-- The row selection performed by `update_graph` (lines 124-130): the month
filter applies whenever the month value is truthy, with or without a year;
then the year filter applies whenever the year value is truthy. -/
def update_graph_filtered (selectedMonth : Option String) (selectedYear : Option Nat)
    (records : List Record) : List Record :=
  let d1 :=
    if truthyMonth selectedMonth then
      records.filter (fun r => recMonthName r = some (selectedMonth.getD ""))
    else records
  if truthyYear selectedYear then
    d1.filter (fun r => recYear r = some (selectedYear.getD 0))
  else d1

/-! ### Concrete sample data for closed instances -/

/-- The spec §8 example records (2023-01-01/1000, 2023-01-02/2000,
2023-01-03/500), one 2022 record, and one record with an unparseable date. -/
def sampleRecords : List Record :=
  [⟨some ⟨2023, 1, 1⟩, 400, 600, 1000, none, "No"⟩,
   ⟨some ⟨2023, 1, 2⟩, 800, 1200, 2000, none, "No"⟩,
   ⟨some ⟨2023, 1, 3⟩, 200, 300, 500, none, "No"⟩,
   ⟨some ⟨2022, 7, 4⟩, 100, 200, 300, none, "No"⟩,
   ⟨none, 1, 2, 3, none, "No"⟩]

/-- Two 2023 records tied at `total = 100`, listed in reverse date order. -/
def tieRecords : List Record :=
  [⟨some ⟨2023, 1, 2⟩, 0, 0, 100, none, "No"⟩,
   ⟨some ⟨2023, 1, 1⟩, 0, 0, 100, none, "No"⟩]

/-- Raw input rows: one clean row and one row with unparseable date text. -/
def sampleRows : List RawRow :=
  [⟨"2023-01-01", "1,000", "2,000", "3,000"⟩,
   ⟨"garbage", "1", "2", "3"⟩]

/-- A one-entry holiday table. -/
def sampleHolidays : List (Date × String) :=
  [(⟨2023, 1, 1⟩, "New Year Day")]

/-! ### Helper lemmas -/

lemma foldlMax_spec (f : Record → Int) (rs : List Record) (r : Record) :
    ∃ pre post,
      r :: rs = pre ++ (rs.foldl (fun best x => if f x > f best then x else best) r) :: post ∧
      (∀ x ∈ pre, f x < f (rs.foldl (fun best x => if f x > f best then x else best) r)) ∧
      (∀ x ∈ post, f x ≤ f (rs.foldl (fun best x => if f x > f best then x else best) r)) := by
  induction rs generalizing r with
  | nil => exact ⟨[], [], rfl, by simp, by simp⟩
  | cons x xs ih =>
    simp only [List.foldl_cons]
    by_cases h : f x > f r
    · rw [if_pos h]
      obtain ⟨pre, post, heq, hpre, hpost⟩ := ih x
      have hxb : f x ≤ f (xs.foldl (fun best x => if f x > f best then x else best) x) := by
        cases pre with
        | nil =>
          rw [List.nil_append, List.cons.injEq] at heq
          exact le_of_eq (congrArg f heq.1)
        | cons p ps =>
          rw [List.cons_append, List.cons.injEq] at heq
          exact le_of_lt (hpre p (by exact List.mem_cons_self p ps) |>.trans_le
            (le_of_eq (congrArg f rfl)) |>.trans_le (le_refl _) |> (heq.1 ▸ ·))
      refine ⟨r :: pre, post, ?_, ?_, hpost⟩
      · rw [List.cons_append, ← heq]
      · intro z hz
        rcases List.mem_cons.mp hz with hz | hz
        · subst hz; exact lt_of_lt_of_le h hxb
        · exact hpre z hz
    · rw [if_neg h]
      have hxr : f x ≤ f r := not_lt.mp h
      obtain ⟨pre, post, heq, hpre, hpost⟩ := ih r
      cases pre with
      | nil =>
        rw [List.nil_append, List.cons.injEq] at heq
        obtain ⟨hb, hp⟩ := heq
        refine ⟨[], x :: post, ?_, by simp, ?_⟩
        · rw [List.nil_append, ← hb, ← hp]
        · intro z hz
          rcases List.mem_cons.mp hz with hz | hz
          · subst hz; exact hxr.trans (le_of_eq (congrArg f hb))
          · exact hpost z hz
      | cons p ps =>
        rw [List.cons_append, List.cons.injEq] at heq
        obtain ⟨hpr, hxs⟩ := heq
        refine ⟨r :: x :: ps, post, ?_, ?_, hpost⟩
        · rw [List.cons_append, List.cons_append, ← hxs]
        · intro z hz
          have hrb : f r < f (xs.foldl (fun best x => if f x > f best then x else best) r) := by
            have := hpre p (List.mem_cons_self p ps)
            rwa [← hpr] at this
          rcases List.mem_cons.mp hz with hz | hz
          · subst hz; exact hrb
          · rcases List.mem_cons.mp hz with hz | hz
            · subst hz; exact lt_of_le_of_lt hxr hrb
            · exact hpre z (List.mem_cons_of_mem p hz)

lemma foldlMin_spec (f : Record → Int) (rs : List Record) (r : Record) :
    ∃ pre post,
      r :: rs = pre ++ (rs.foldl (fun best x => if f x < f best then x else best) r) :: post ∧
      (∀ x ∈ pre, f (rs.foldl (fun best x => if f x < f best then x else best) r) < f x) ∧
      (∀ x ∈ post, f (rs.foldl (fun best x => if f x < f best then x else best) r) ≤ f x) := by
  induction rs generalizing r with
  | nil => exact ⟨[], [], rfl, by simp, by simp⟩
  | cons x xs ih =>
    simp only [List.foldl_cons]
    by_cases h : f x < f r
    · rw [if_pos h]
      obtain ⟨pre, post, heq, hpre, hpost⟩ := ih x
      have hxb : f (xs.foldl (fun best x => if f x < f best then x else best) x) ≤ f x := by
        cases pre with
        | nil =>
          rw [List.nil_append, List.cons.injEq] at heq
          exact le_of_eq (congrArg f heq.1.symm)
        | cons p ps =>
          rw [List.cons_append, List.cons.injEq] at heq
          exact le_of_lt (heq.1 ▸ hpre p (List.mem_cons_self p ps))
      refine ⟨r :: pre, post, ?_, ?_, hpost⟩
      · rw [List.cons_append, ← heq]
      · intro z hz
        rcases List.mem_cons.mp hz with hz | hz
        · subst hz; exact lt_of_le_of_lt hxb h
        · exact hpre z hz
    · rw [if_neg h]
      have hxr : f r ≤ f x := not_lt.mp h
      obtain ⟨pre, post, heq, hpre, hpost⟩ := ih r
      cases pre with
      | nil =>
        rw [List.nil_append, List.cons.injEq] at heq
        obtain ⟨hb, hp⟩ := heq
        refine ⟨[], x :: post, ?_, by simp, ?_⟩
        · rw [List.nil_append, ← hb, ← hp]
        · intro z hz
          rcases List.mem_cons.mp hz with hz | hz
          · subst hz; exact (le_of_eq (congrArg f hb.symm)).trans hxr
          · exact hpost z hz
      | cons p ps =>
        rw [List.cons_append, List.cons.injEq] at heq
        obtain ⟨hpr, hxs⟩ := heq
        refine ⟨r :: x :: ps, post, ?_, ?_, hpost⟩
        · rw [List.cons_append, List.cons_append, ← hxs]
        · intro z hz
          have hrb : f (xs.foldl (fun best x => if f x < f best then x else best) r) < f r := by
            have := hpre p (List.mem_cons_self p ps)
            rwa [← hpr] at this
          rcases List.mem_cons.mp hz with hz | hz
          · subst hz; exact hrb
          · rcases List.mem_cons.mp hz with hz | hz
            · subst hz; exact lt_of_lt_of_le hrb hxr
            · exact hpre z (List.mem_cons_of_mem p hz)

lemma firstMaxBy_spec (f : Record → Int) (l : List Record) (b : Record)
    (h : firstMaxBy f l = some b) :
    ∃ pre post, l = pre ++ b :: post ∧
      (∀ x ∈ pre, f x < f b) ∧ (∀ x ∈ post, f x ≤ f b) := by
  match l with
  | [] => simp [firstMaxBy] at h
  | r :: rs =>
    simp only [firstMaxBy, Option.some.injEq] at h
    obtain ⟨pre, post, heq, hpre, hpost⟩ := foldlMax_spec f rs r
    rw [h] at heq hpre hpost
    exact ⟨pre, post, heq, hpre, hpost⟩

lemma firstMinBy_spec (f : Record → Int) (l : List Record) (b : Record)
    (h : firstMinBy f l = some b) :
    ∃ pre post, l = pre ++ b :: post ∧
      (∀ x ∈ pre, f b < f x) ∧ (∀ x ∈ post, f b ≤ f x) := by
  match l with
  | [] => simp [firstMinBy] at h
  | r :: rs =>
    simp only [firstMinBy, Option.some.injEq] at h
    obtain ⟨pre, post, heq, hpre, hpost⟩ := foldlMin_spec f rs r
    rw [h] at heq hpre hpost
    exact ⟨pre, post, heq, hpre, hpost⟩

lemma firstMaxBy_mem_le (f : Record → Int) (l : List Record) (b : Record)
    (h : firstMaxBy f l = some b) : b ∈ l ∧ ∀ x ∈ l, f x ≤ f b := by
  obtain ⟨pre, post, heq, hpre, hpost⟩ := firstMaxBy_spec f l b h
  subst heq
  refine ⟨List.mem_append_right pre (List.mem_cons_self b post), ?_⟩
  intro x hx
  rcases List.mem_append.mp hx with hx | hx
  · exact le_of_lt (hpre x hx)
  · rcases List.mem_cons.mp hx with hx | hx
    · subst hx; exact le_refl _
    · exact hpost x hx

lemma firstMinBy_mem_le (f : Record → Int) (l : List Record) (b : Record)
    (h : firstMinBy f l = some b) : b ∈ l ∧ ∀ x ∈ l, f b ≤ f x := by
  obtain ⟨pre, post, heq, hpre, hpost⟩ := firstMinBy_spec f l b h
  subst heq
  refine ⟨List.mem_append_right pre (List.mem_cons_self b post), ?_⟩
  intro x hx
  rcases List.mem_append.mp hx with hx | hx
  · exact le_of_lt (hpre x hx)
  · rcases List.mem_cons.mp hx with hx | hx
    · subst hx; exact le_refl _
    · exact hpost x hx

lemma firstMaxBy_eq_none (f : Record → Int) (l : List Record) :
    firstMaxBy f l = none ↔ l = [] := by
  cases l <;> simp [firstMaxBy]

lemma firstMinBy_eq_none (f : Record → Int) (l : List Record) :
    firstMinBy f l = none ↔ l = [] := by
  cases l <;> simp [firstMinBy]

lemma sumTotals_cons (r : Record) (rs : List Record) :
    sumTotals (r :: rs) = r.total + sumTotals rs := by
  simp [sumTotals]

lemma yearFilter_cons (r : Record) (rs : List Record) (y : Nat) :
    yearFilter (r :: rs) y =
      if recYear r = some y then r :: yearFilter rs y else yearFilter rs y := by
  simp only [yearFilter, List.filter_cons]
  split <;> split <;> simp_all

lemma sumTotals_yearFilter_cons (r : Record) (rs : List Record) (y : Nat) :
    sumTotals (yearFilter (r :: rs) y) =
      (if recYear r = some y then r.total else 0) + sumTotals (yearFilter rs y) := by
  rw [yearFilter_cons]
  split
  · rw [sumTotals_cons]
  · simp

lemma list_sum_map_add (l : List Nat) (f g : Nat → Int) :
    (l.map (fun x => f x + g x)).sum = (l.map f).sum + (l.map g).sum := by
  induction l with
  | nil => simp
  | cons a t ih => simp [ih]; ring

lemma sum_ite_not_mem (ys : List Nat) (y0 : Nat) (c : Int) (h : y0 ∉ ys) :
    (ys.map (fun y => if y0 = y then c else 0)).sum = 0 := by
  induction ys with
  | nil => simp
  | cons a t ih =>
    have ha : y0 ≠ a := fun he => h (he ▸ List.mem_cons_self a t)
    have ht : y0 ∉ t := fun hm => h (List.mem_cons_of_mem a hm)
    simp [ha, ih ht]

lemma sum_ite_mem (ys : List Nat) (hnd : ys.Nodup) (y0 : Nat) (c : Int) (h : y0 ∈ ys) :
    (ys.map (fun y => if y0 = y then c else 0)).sum = c := by
  induction ys with
  | nil => simp at h
  | cons a t ih =>
    rcases List.mem_cons.mp h with h0 | h0
    · subst h0
      have ht : y0 ∉ t := (List.nodup_cons.mp hnd).1
      simp [sum_ite_not_mem t y0 c ht]
    · have ha : y0 ≠ a := by
        intro he; subst he
        exact (List.nodup_cons.mp hnd).1 h0
      simp only [List.map_cons, List.sum_cons]
      rw [if_neg ha, ih (List.nodup_cons.mp hnd).2 h0, zero_add]

lemma groupSum_eq (ys : List Nat) (hnd : ys.Nodup) (records : List Record)
    (hcov : ∀ r ∈ records, ∀ y, recYear r = some y → y ∈ ys) :
    (ys.map (fun y => sumTotals (yearFilter records y))).sum
      = sumTotals (records.filter (fun r => (recYear r).isSome)) := by
  induction records with
  | nil => simp [yearFilter, sumTotals]
  | cons r rs ih =>
    have hcov' : ∀ x ∈ rs, ∀ y, recYear x = some y → y ∈ ys :=
      fun x hx => hcov x (List.mem_cons_of_mem r hx)
    have hmap : ys.map (fun y => sumTotals (yearFilter (r :: rs) y))
        = ys.map (fun y => (if recYear r = some y then r.total else 0)
            + sumTotals (yearFilter rs y)) := by
      apply List.map_congr_left
      intro y _
      exact sumTotals_yearFilter_cons r rs y
    rw [hmap, list_sum_map_add, ih hcov']
    rcases hy : recYear r with _ | y0
    · rw [List.filter_cons]
      simp [hy]
    · have hmem : y0 ∈ ys := hcov r (List.mem_cons_self r rs) y0 hy
      have h1 : (ys.map (fun y => if some y0 = some y then r.total else 0)).sum = r.total := by
        have he : ∀ y ∈ ys, (if some y0 = some y then r.total else (0 : Int))
            = (if y0 = y then r.total else 0) := by
          intro y _; simp
        rw [List.map_congr_left he]
        exact sum_ite_mem ys hnd y0 r.total hmem
      rw [h1, List.filter_cons]
      simp [hy, sumTotals_cons]

lemma groupYearly_fst (records : List Record) :
    (groupYearly records).map Prod.fst = (distinctYears records).insertionSort (· ≤ ·) := by
  unfold groupYearly
  rw [List.map_map]
  have h : ∀ y ∈ (distinctYears records).insertionSort (· ≤ ·),
      (Prod.fst ∘ fun y => (y, sumTotals (yearFilter records y))) y = y := fun y _ => rfl
  rw [List.map_congr_left h]
  exact List.map_id _

lemma groupYearly_fst_sorted (records : List Record) :
    List.Sorted (· ≤ ·) ((groupYearly records).map Prod.fst) := by
  rw [groupYearly_fst]
  exact List.sorted_insertionSort (· ≤ ·) (distinctYears records)

lemma groupYearly_fst_nodup (records : List Record) :
    ((groupYearly records).map Prod.fst).Nodup := by
  rw [groupYearly_fst]
  exact (List.perm_insertionSort (· ≤ ·) (distinctYears records)).nodup_iff.mpr
    (List.nodup_dedup _)

lemma mem_distinctYears (records : List Record) (y : Nat) :
    y ∈ distinctYears records ↔ ∃ r ∈ records, recYear r = some y := by
  simp [distinctYears, List.mem_dedup, List.mem_filterMap]

lemma groupYearly_fst_mem (records : List Record) (y : Nat) :
    y ∈ (groupYearly records).map Prod.fst ↔ ∃ r ∈ records, recYear r = some y := by
  rw [groupYearly_fst, List.mem_insertionSort, mem_distinctYears]

lemma groupYearly_length (records : List Record) :
    (groupYearly records).length = (distinctYears records).length := by
  simp [groupYearly, List.length_insertionSort]

lemma groupYearly_snd (records : List Record) (p : Nat × Int) (h : p ∈ groupYearly records) :
    p.2 = sumTotals (yearFilter records p.1) := by
  simp only [groupYearly, List.mem_map] at h
  obtain ⟨y, _, hy⟩ := h
  rw [← hy]

lemma groupYearly_sum (records : List Record) :
    ((groupYearly records).map Prod.snd).sum
      = sumTotals (records.filter (fun r => (recYear r).isSome)) := by
  have hnd : ((distinctYears records).insertionSort (· ≤ ·)).Nodup :=
    (List.perm_insertionSort (· ≤ ·) (distinctYears records)).nodup_iff.mpr
      (List.nodup_dedup _)
  have hcov : ∀ r ∈ records, ∀ y, recYear r = some y
      → y ∈ (distinctYears records).insertionSort (· ≤ ·) := by
    intro r hr y hy
    rw [List.mem_insertionSort, mem_distinctYears]
    exact ⟨r, hr, hy⟩
  have := groupSum_eq ((distinctYears records).insertionSort (· ≤ ·)) hnd records hcov
  rw [← this, groupYearly, List.map_map]
  rfl

lemma truthyYear_some (y : Nat) (hy : y ≠ 0) : truthyYear (some y) = true := by
  simp [truthyYear, hy]

lemma truthyMonth_some (m : String) (hm : m ≠ "") : truthyMonth (some m) = true := by
  simp [truthyMonth, hm]

lemma update_table_none_none (records : List Record) :
    update_table none none records = .yearly (groupYearly records) := by
  rfl

lemma update_table_year_only (y : Nat) (hy : y ≠ 0) (records : List Record) :
    update_table (some y) none records =
      match firstMaxBy (·.total) (yearFilter records y),
            firstMinBy (·.total) (yearFilter records y) with
      | some b, some q => .summary [busiestRow b, quietestRow q]
      | _, _ => .emptyDefault := by
  unfold update_table
  rw [truthyYear_some y hy]
  rfl

lemma update_table_year_month (y : Nat) (hy : y ≠ 0) (m : String) (hm : m ≠ "")
    (records : List Record) :
    update_table (some y) (some m) records =
      match firstMaxBy (·.total) (yearMonthFilter records y m),
            firstMinBy (·.total) (yearMonthFilter records y m) with
      | some b, some q =>
        .summary [busiestRow b, quietestRow q,
                  ⟨"Monthly Total", "N/A", "N/A", sumTotals (yearMonthFilter records y m)⟩]
      | _, _ => .emptyDefault := by
  unfold update_table
  rw [truthyYear_some y hy, truthyMonth_some m hm]
  rfl

lemma update_table_month_only (m : String) (hm : m ≠ "") (records : List Record) :
    update_table none (some m) records = .emptyDefault := by
  unfold update_table
  rw [truthyMonth_some m hm]
  rfl

lemma mem_yearFilter (records : List Record) (y : Nat) (r : Record) :
    r ∈ yearFilter records y ↔ r ∈ records ∧ recYear r = some y := by
  simp [yearFilter]

lemma mem_yearMonthFilter (records : List Record) (y : Nat) (m : String) (r : Record) :
    r ∈ yearMonthFilter records y m
      ↔ r ∈ records ∧ recYear r = some y ∧ recMonthName r = some m := by
  simp [yearMonthFilter]

lemma loadRecords_total (rows : List RawRow)
    (hc : ∀ row ∈ rows, (parseCount row.busText).isSome
          ∧ (parseCount row.railText).isSome ∧ (parseCount row.totalText).isSome) :
    ∃ recs, loadRecords rows = some recs ∧ recs.length = rows.length ∧
      recs.map (·.date) = rows.map (fun row => parseDate row.dateText) := by
  induction rows with
  | nil => exact ⟨[], rfl, rfl, rfl⟩
  | cons row rest ih =>
    obtain ⟨recs, hrecs, hlen, hdates⟩ := ih (fun r hr => hc r (List.mem_cons_of_mem row hr))
    obtain ⟨hb, hr, ht⟩ := hc row (List.mem_cons_self row rest)
    obtain ⟨b, hb⟩ := Option.isSome_iff_exists.mp hb
    obtain ⟨c, hr⟩ := Option.isSome_iff_exists.mp hr
    obtain ⟨t, ht⟩ := Option.isSome_iff_exists.mp ht
    refine ⟨⟨parseDate row.dateText, b, c, t, none, "No"⟩ :: recs, ?_, ?_, ?_⟩
    · simp only [loadRecords, normalizeRow, hb, hr, ht, hrecs]
    · simp [hlen]
    · simp [hdates]

lemma filterMap_recYear_filter_isSome (records : List Record) :
    (records.filter (fun r => (recYear r).isSome)).filterMap recYear
      = records.filterMap recYear := by
  induction records with
  | nil => rfl
  | cons r rs ih =>
    rcases hy : recYear r with _ | y
    · rw [List.filter_cons, List.filterMap_cons]
      simp [hy, ih]
    · rw [List.filter_cons, List.filterMap_cons]
      simp only [hy, Option.isSome_some, decide_True, if_true, List.filterMap_cons]
      simp [hy, ih]

lemma yearFilter_filter_isSome (records : List Record) (y : Nat) :
    yearFilter (records.filter (fun r => (recYear r).isSome)) y = yearFilter records y := by
  unfold yearFilter
  rw [List.filter_filter]
  apply List.filter_congr
  intro r _
  rcases hy : recYear r with _ | y0 <;> simp [hy]

lemma groupYearly_filter_isSome (records : List Record) :
    groupYearly (records.filter (fun r => (recYear r).isSome)) = groupYearly records := by
  unfold groupYearly distinctYears
  rw [filterMap_recYear_filter_isSome]
  apply List.map_congr_left
  intro y _
  rw [yearFilter_filter_isSome]

/-! ### Enrichment helpers -/

lemma filter_key_eq_find_toList (hl : List (Date × String)) (d : Date)
    (hnd : (hl.map Prod.fst).Nodup) :
    hl.filter (fun p => p.1 = d) = (hl.find? (fun p => p.1 = d)).toList := by
  induction hl with
  | nil => rfl
  | cons p tl ih =>
    rw [List.map_cons, List.nodup_cons] at hnd
    by_cases hp : p.1 = d
    · rw [List.filter_cons, List.find?_cons]
      have htl : tl.filter (fun p => p.1 = d) = [] := by
        rw [List.filter_eq_nil_iff]
        intro q hq hqd
        apply hnd.1
        rw [hp]
        rw [decide_eq_true_eq] at hqd
        rw [← hqd]
        exact List.mem_map_of_mem Prod.fst hq
      simp [hp, htl]
    · rw [List.filter_cons, List.find?_cons]
      simp only [hp, decide_False, if_false]
      rw [ih hnd.2]
      rfl

lemma mergeOne_eq (hl : List (Date × String)) (hnd : (hl.map Prod.fst).Nodup) (r : Record) :
    mergeHolidays hl [r] = [setHolidayName r (lookupHoliday hl r.date)] := by
  unfold mergeHolidays
  rw [List.flatMap_cons, List.flatMap_nil, List.append_nil]
  rcases hd : r.date with _ | d
  · rfl
  · simp only [lookupHoliday]
    rw [filter_key_eq_find_toList hl d hnd]
    set o := hl.find? (fun p => p.1 = d) with ho
    rcases o with _ | q
    · rfl
    · rfl

lemma mergeHolidays_eq_map (hl : List (Date × String)) (records : List Record)
    (hnd : (hl.map Prod.fst).Nodup) :
    mergeHolidays hl records
      = records.map (fun r => setHolidayName r (lookupHoliday hl r.date)) := by
  induction records with
  | nil => rfl
  | cons r rs ih =>
    have h1 := mergeOne_eq hl hnd r
    unfold mergeHolidays at h1 ih ⊢
    rw [List.flatMap_cons, List.flatMap_nil, List.append_nil] at h1
    rw [List.flatMap_cons, h1, ih, List.map_cons]
    rfl

lemma enrich_eq_map (hl : List (Date × String)) (records : List Record)
    (hnd : (hl.map Prod.fst).Nodup) :
    enrichWithHolidays hl records = records.map (enrichOne hl) := by
  unfold enrichWithHolidays
  rw [mergeHolidays_eq_map hl records hnd, List.map_map]
  apply List.map_congr_left
  intro r _
  rfl

lemma enrichOne_date (hl : List (Date × String)) (r : Record) :
    (enrichOne hl r).date = r.date := rfl

lemma enrichOne_idem (hl : List (Date × String)) (r : Record) :
    enrichOne hl (enrichOne hl r) = enrichOne hl r := rfl

/-! ### Parsing helpers -/

lemma digitsVal_isSome (cs : List Char) :
    (digitsVal cs).isSome = (!cs.isEmpty && cs.all (·.isDigit)) := by
  rcases cs with _ | ⟨c, tl⟩
  · rfl
  · by_cases h : (c :: tl).all (·.isDigit)
    · simp [digitsVal, h]
    · simp [digitsVal, h]

lemma isSome_bind_some {α β : Type} (o : Option α) (f : α → β) :
    (o.bind (fun a => some (f a))).isSome = o.isSome := by
  cases o <;> rfl

lemma pyInt_isSome (s : String) : (pyInt s).isSome = isSignedIntString s := by
  unfold pyInt isSignedIntString
  rcases hcs : s.toList with _ | ⟨c, tl⟩
  · rfl
  · by_cases hm : c = '-'
    · simp [hm, digitsVal_isSome, isSome_bind_some]
    · by_cases hp : c = '+'
      · simp [hm, hp, digitsVal_isSome, isSome_bind_some]
      · simp [hm, hp, digitsVal_isSome, isSome_bind_some]

lemma parseCount_none_iff (s : String) :
    parseCount s = none ↔ isSignedIntString (stripCommas s) = false := by
  rw [parseCount, ← pyInt_isSome]
  cases pyInt (stripCommas s) <;> simp

lemma yearFilter_eq_nil_iff (records : List Record) (y : Nat) :
    yearFilter records y = [] ↔ ∀ r ∈ records, recYear r ≠ some y := by
  simp [yearFilter, List.filter_eq_nil_iff]

lemma yearMonthFilter_eq_nil_iff (records : List Record) (y : Nat) (m : String) :
    yearMonthFilter records y m = []
      ↔ ∀ r ∈ records, recYear r = some y → recMonthName r ≠ some m := by
  simp [yearMonthFilter, List.filter_eq_nil_iff]

lemma isSome_opt_map {α β : Type} (o : Option α) (f : α → β) :
    (o.map f).isSome = o.isSome := by
  cases o <;> rfl

lemma lookupHoliday_isSome (hl : List (Date × String)) (od : Option Date) :
    (lookupHoliday hl od).isSome ↔ ∃ d, od = some d ∧ d ∈ hl.map Prod.fst := by
  rcases od with _ | d
  · simp [lookupHoliday]
  · rw [show lookupHoliday hl (some d)
          = (hl.find? (fun p => p.1 = d)).map (·.2) from rfl,
        isSome_opt_map, List.find?_isSome]
    constructor
    · rintro ⟨p, hp, hpd⟩
      rw [decide_eq_true_eq] at hpd
      exact ⟨d, rfl, hpd ▸ List.mem_map_of_mem Prod.fst hp⟩
    · rintro ⟨d0, hd0, hmem⟩
      obtain rfl : d0 = d := by injection hd0.symm
      obtain ⟨p, hp, hpd⟩ := List.mem_map.mp hmem
      exact ⟨p, hp, by rw [decide_eq_true_eq]; exact hpd⟩

/-! ### Claim theorems -/

/-- C1: for every record set and nonzero year, `update_table` with only that
year set returns exactly two rows labeled "Busiest Day" and "Quietest Day",
each carrying (date, day-of-week, total), whose totals are the true maximum
and minimum of `Grand Total` over the records of that year; if no record has
that year the result is the empty default, not an error. -/
theorem C1_year_only_extremes (records : List Record) (y : Nat) (hy : y ≠ 0) :
    ((∀ r ∈ records, recYear r ≠ some y) →
      update_table (some y) none records = .emptyDefault) ∧
    ((∃ r ∈ records, recYear r = some y) →
      ∃ b q, update_table (some y) none records =
          .summary [⟨"Busiest Day", recDateStr b, recDayStr b, b.total⟩,
                    ⟨"Quietest Day", recDateStr q, recDayStr q, q.total⟩] ∧
        b ∈ records ∧ recYear b = some y ∧
        q ∈ records ∧ recYear q = some y ∧
        (∀ r ∈ records, recYear r = some y → r.total ≤ b.total) ∧
        (∀ r ∈ records, recYear r = some y → q.total ≤ r.total)) := by
  constructor
  · intro hnone
    have hemp : yearFilter records y = [] := (yearFilter_eq_nil_iff records y).mpr hnone
    rw [update_table_year_only y hy records, hemp]
    rfl
  · rintro ⟨r0, hr0, hy0⟩
    have hne : yearFilter records y ≠ [] :=
      List.ne_nil_of_mem ((mem_yearFilter records y r0).mpr ⟨hr0, hy0⟩)
    rcases hmax : firstMaxBy (·.total) (yearFilter records y) with _ | b
    · exact absurd ((firstMaxBy_eq_none _ _).mp hmax) hne
    rcases hmin : firstMinBy (·.total) (yearFilter records y) with _ | q
    · exact absurd ((firstMinBy_eq_none _ _).mp hmin) hne
    obtain ⟨hbmem, hble⟩ := firstMaxBy_mem_le _ _ _ hmax
    obtain ⟨hqmem, hqle⟩ := firstMinBy_mem_le _ _ _ hmin
    obtain ⟨hbrec, hbyear⟩ := (mem_yearFilter records y b).mp hbmem
    obtain ⟨hqrec, hqyear⟩ := (mem_yearFilter records y q).mp hqmem
    refine ⟨b, q, ?_, hbrec, hbyear, hqrec, hqyear, ?_, ?_⟩
    · rw [update_table_year_only y hy records, hmax, hmin]
      rfl
    · intro r hr hry
      exact hble r ((mem_yearFilter records y r).mpr ⟨hr, hry⟩)
    · intro r hr hry
      exact hqle r ((mem_yearFilter records y r).mpr ⟨hr, hry⟩)

/-- Closed instance of C1 at the spec §8 example data. -/
theorem C1_witness :
    ∃ b q, update_table (some 2023) none sampleRecords =
        .summary [⟨"Busiest Day", recDateStr b, recDayStr b, b.total⟩,
                  ⟨"Quietest Day", recDateStr q, recDayStr q, q.total⟩] ∧
      b ∈ sampleRecords ∧ recYear b = some 2023 ∧
      q ∈ sampleRecords ∧ recYear q = some 2023 ∧
      (∀ r ∈ sampleRecords, recYear r = some 2023 → r.total ≤ b.total) ∧
      (∀ r ∈ sampleRecords, recYear r = some 2023 → q.total ≤ r.total) :=
  (C1_year_only_extremes sampleRecords 2023 (by decide)).2
    ⟨⟨some ⟨2023, 1, 1⟩, 400, 600, 1000, none, "No"⟩, by decide, by decide⟩

/-- C2: with no filters set, `update_table` groups by year: one row per
distinct valid year, keys ascending and distinct, each row's value the sum
of `Grand Total` over that year's records, the row count equal to the number
of distinct valid years, and the returned totals summing to the sum of
`Grand Total` over all records with a valid year. -/
theorem C2_yearly_totals (records : List Record) :
    update_table none none records = .yearly (groupYearly records) ∧
    List.Sorted (· ≤ ·) ((groupYearly records).map Prod.fst) ∧
    ((groupYearly records).map Prod.fst).Nodup ∧
    (∀ y, y ∈ (groupYearly records).map Prod.fst ↔ ∃ r ∈ records, recYear r = some y) ∧
    (groupYearly records).length = (records.filterMap recYear).dedup.length ∧
    (∀ p ∈ groupYearly records, p.2 = sumTotals (yearFilter records p.1)) ∧
    ((groupYearly records).map Prod.snd).sum
      = sumTotals (records.filter (fun r => (recYear r).isSome)) :=
  ⟨update_table_none_none records, groupYearly_fst_sorted records,
   groupYearly_fst_nodup records, fun y => groupYearly_fst_mem records y,
   groupYearly_length records, fun p hp => groupYearly_snd records p hp,
   groupYearly_sum records⟩

/-- Closed instance of C2 at the sample data (2022 total 300, 2023 total
3500; the bad-date record's total 3 is excluded). -/
theorem C2_witness :
    update_table none none sampleRecords = .yearly [(2022, 300), (2023, 3500)] := by
  rw [(C2_yearly_totals sampleRecords).1]
  rfl

/-- C4 counterexample: with a month selected and no year, `update_table`
returns the ordinary empty default result — the same value the benign
empty-year case produces — although the data does contain July records;
nothing fails. -/
theorem C4_counterexample :
    update_table none (some "July") sampleRecords = .emptyDefault ∧
    (∃ r ∈ sampleRecords, recMonthName r = some "July") ∧
    update_table (some 1999) none sampleRecords = .emptyDefault := by
  refine ⟨by rfl, ⟨⟨some ⟨2022, 7, 4⟩, 100, 200, 300, none, "No"⟩, by decide, by rfl⟩, by rfl⟩

/-- C4 amended: month-only filtering is rejected by falling through to the
fallback branch, yielding the empty default result for every record set —
silently, with no error of any kind. -/
theorem C4_month_only_empty (records : List Record) (m : String) (hm : m ≠ "") :
    update_table none (some m) records = .emptyDefault :=
  update_table_month_only m hm records

/-- Closed instance of C4 (amended) at concrete inputs. -/
theorem C4_witness : update_table none (some "March") sampleRecords = .emptyDefault :=
  C4_month_only_empty sampleRecords "March" (by decide)

/-- C10: in the chart-data selection of `update_graph`, a month with no year
is accepted: the record set is restricted by month name alone across all
years; with neither filter set the full record set is used — unlike the
Aggregator path, which yields the empty default for month-without-year. -/
theorem C10_graph_month_only (records : List Record) (m : String) (hm : m ≠ "") :
    update_graph_filtered (some m) none records
        = records.filter (fun r => recMonthName r = some m) ∧
    (∀ r, r ∈ update_graph_filtered (some m) none records
        ↔ r ∈ records ∧ recMonthName r = some m) ∧
    update_graph_filtered none none records = records ∧
    update_table none (some m) records = .emptyDefault := by
  have h1 : update_graph_filtered (some m) none records
      = records.filter (fun r => recMonthName r = some m) := by
    unfold update_graph_filtered
    rw [truthyMonth_some m hm]
    rfl
  refine ⟨h1, ?_, rfl, update_table_month_only m hm records⟩
  intro r
  rw [h1]
  simp

/-- Closed instance of C10 at the sample data. -/
theorem C10_witness :
    update_graph_filtered (some "July") none sampleRecords
        = sampleRecords.filter (fun r => recMonthName r = some "July") ∧
    (∀ r, r ∈ update_graph_filtered (some "July") none sampleRecords
        ↔ r ∈ sampleRecords ∧ recMonthName r = some "July") ∧
    update_graph_filtered none none sampleRecords = sampleRecords ∧
    update_table none (some "July") sampleRecords = .emptyDefault :=
  C10_graph_month_only sampleRecords "July" (by decide)

/-- C3: with both year and month set and a non-empty restricted set,
`update_table` returns exactly three rows — "Busiest Day", "Quietest Day",
and "Monthly Total" — where the monthly total is the sum of `Grand Total`
over exactly the records matching both filters and its date/day cells are
the "N/A" marker; if the restricted set is empty, the result is the empty
default. -/
theorem C3_year_month_summary (records : List Record) (y : Nat) (hy : y ≠ 0)
    (m : String) (hm : m ≠ "") :
    ((∀ r ∈ records, recYear r = some y → recMonthName r ≠ some m) →
      update_table (some y) (some m) records = .emptyDefault) ∧
    ((∃ r ∈ records, recYear r = some y ∧ recMonthName r = some m) →
      ∃ b q, update_table (some y) (some m) records =
          .summary [⟨"Busiest Day", recDateStr b, recDayStr b, b.total⟩,
                    ⟨"Quietest Day", recDateStr q, recDayStr q, q.total⟩,
                    ⟨"Monthly Total", "N/A", "N/A", sumTotals (yearMonthFilter records y m)⟩] ∧
        (∀ r, r ∈ yearMonthFilter records y m
            ↔ r ∈ records ∧ recYear r = some y ∧ recMonthName r = some m) ∧
        b ∈ yearMonthFilter records y m ∧ q ∈ yearMonthFilter records y m ∧
        (∀ r ∈ yearMonthFilter records y m, r.total ≤ b.total) ∧
        (∀ r ∈ yearMonthFilter records y m, q.total ≤ r.total)) := by
  constructor
  · intro hnone
    have hemp : yearMonthFilter records y m = [] :=
      (yearMonthFilter_eq_nil_iff records y m).mpr hnone
    rw [update_table_year_month y hy m hm records, hemp]
    rfl
  · rintro ⟨r0, hr0, hy0, hm0⟩
    have hne : yearMonthFilter records y m ≠ [] :=
      List.ne_nil_of_mem ((mem_yearMonthFilter records y m r0).mpr ⟨hr0, hy0, hm0⟩)
    rcases hmax : firstMaxBy (·.total) (yearMonthFilter records y m) with _ | b
    · exact absurd ((firstMaxBy_eq_none _ _).mp hmax) hne
    rcases hmin : firstMinBy (·.total) (yearMonthFilter records y m) with _ | q
    · exact absurd ((firstMinBy_eq_none _ _).mp hmin) hne
    obtain ⟨hbmem, hble⟩ := firstMaxBy_mem_le _ _ _ hmax
    obtain ⟨hqmem, hqle⟩ := firstMinBy_mem_le _ _ _ hmin
    refine ⟨b, q, ?_, fun r => mem_yearMonthFilter records y m r, hbmem, hqmem, hble, hqle⟩
    rw [update_table_year_month y hy m hm records, hmax, hmin]
    rfl

/-- Closed instance of C3 at the sample data (January 2023). -/
theorem C3_witness :
    ∃ b q, update_table (some 2023) (some "January") sampleRecords =
        .summary [⟨"Busiest Day", recDateStr b, recDayStr b, b.total⟩,
                  ⟨"Quietest Day", recDateStr q, recDayStr q, q.total⟩,
                  ⟨"Monthly Total", "N/A", "N/A",
                   sumTotals (yearMonthFilter sampleRecords 2023 "January")⟩] ∧
      (∀ r, r ∈ yearMonthFilter sampleRecords 2023 "January"
          ↔ r ∈ sampleRecords ∧ recYear r = some 2023 ∧ recMonthName r = some "January") ∧
      b ∈ yearMonthFilter sampleRecords 2023 "January" ∧
      q ∈ yearMonthFilter sampleRecords 2023 "January" ∧
      (∀ r ∈ yearMonthFilter sampleRecords 2023 "January", r.total ≤ b.total) ∧
      (∀ r ∈ yearMonthFilter sampleRecords 2023 "January", q.total ≤ r.total) :=
  (C3_year_month_summary sampleRecords 2023 (by decide) "January" (by decide)).2
    ⟨⟨some ⟨2023, 1, 1⟩, 400, 600, 1000, none, "No"⟩, by decide, by decide, by decide⟩

/-- C5 counterexample: two tied 2023 records listed in reverse date order;
the "Busiest Day" and "Quietest Day" rows carry the date 2023-01-02 of the
first record in row order, although a tied record with the strictly earlier
date 2023-01-01 exists, so the rows are not the tied record that comes
first by date ascending. -/
theorem C5_counterexample :
    update_table (some 2023) none tieRecords =
      .summary [⟨"Busiest Day", "2023-01-02", "Monday", 100⟩,
                ⟨"Quietest Day", "2023-01-02", "Monday", 100⟩] ∧
    (∃ r ∈ tieRecords, r.date = some ⟨2023, 1, 1⟩ ∧ r.total = 100) ∧
    dateLt ⟨2023, 1, 1⟩ ⟨2023, 1, 2⟩ := by
  refine ⟨by rfl, ⟨⟨some ⟨2023, 1, 1⟩, 0, 0, 100, none, "No"⟩, by decide, by decide, by decide⟩,
         by decide⟩

/-- C5 amended: ties for maximum (respectively minimum) `Grand Total` are
broken by the first record in the restricted set's row (iteration) order —
the order of the source table — not by date: the returned busiest record is
preceded in the filtered list only by records with strictly smaller totals,
and the quietest only by records with strictly larger totals, in both the
year-only and the year-month branch. -/
theorem C5_tie_first_in_row_order (records : List Record) (y : Nat) (hy : y ≠ 0)
    (m : String) (hm : m ≠ "") :
    (yearFilter records y ≠ [] →
      ∃ b q, update_table (some y) none records =
          .summary [busiestRow b, quietestRow q] ∧
        (∃ pre post, yearFilter records y = pre ++ b :: post ∧
          (∀ x ∈ pre, x.total < b.total) ∧ (∀ x ∈ post, x.total ≤ b.total)) ∧
        (∃ pre post, yearFilter records y = pre ++ q :: post ∧
          (∀ x ∈ pre, q.total < x.total) ∧ (∀ x ∈ post, q.total ≤ x.total))) ∧
    (yearMonthFilter records y m ≠ [] →
      ∃ b q, update_table (some y) (some m) records =
          .summary [busiestRow b, quietestRow q,
                    ⟨"Monthly Total", "N/A", "N/A", sumTotals (yearMonthFilter records y m)⟩] ∧
        (∃ pre post, yearMonthFilter records y m = pre ++ b :: post ∧
          (∀ x ∈ pre, x.total < b.total) ∧ (∀ x ∈ post, x.total ≤ b.total)) ∧
        (∃ pre post, yearMonthFilter records y m = pre ++ q :: post ∧
          (∀ x ∈ pre, q.total < x.total) ∧ (∀ x ∈ post, q.total ≤ x.total))) := by
  constructor
  · intro hne
    rcases hmax : firstMaxBy (·.total) (yearFilter records y) with _ | b
    · exact absurd ((firstMaxBy_eq_none _ _).mp hmax) hne
    rcases hmin : firstMinBy (·.total) (yearFilter records y) with _ | q
    · exact absurd ((firstMinBy_eq_none _ _).mp hmin) hne
    refine ⟨b, q, ?_, firstMaxBy_spec _ _ _ hmax, firstMinBy_spec _ _ _ hmin⟩
    rw [update_table_year_only y hy records, hmax, hmin]
  · intro hne
    rcases hmax : firstMaxBy (·.total) (yearMonthFilter records y m) with _ | b
    · exact absurd ((firstMaxBy_eq_none _ _).mp hmax) hne
    rcases hmin : firstMinBy (·.total) (yearMonthFilter records y m) with _ | q
    · exact absurd ((firstMinBy_eq_none _ _).mp hmin) hne
    refine ⟨b, q, ?_, firstMaxBy_spec _ _ _ hmax, firstMinBy_spec _ _ _ hmin⟩
    rw [update_table_year_month y hy m hm records, hmax, hmin]

/-- Closed instance of C5 (amended) at the tied sample data. -/
theorem C5_witness :
    ∃ b q, update_table (some 2023) none tieRecords =
        .summary [busiestRow b, quietestRow q] ∧
      (∃ pre post, yearFilter tieRecords 2023 = pre ++ b :: post ∧
        (∀ x ∈ pre, x.total < b.total) ∧ (∀ x ∈ post, x.total ≤ b.total)) ∧
      (∃ pre post, yearFilter tieRecords 2023 = pre ++ q :: post ∧
        (∀ x ∈ pre, q.total < x.total) ∧ (∀ x ∈ post, q.total ≤ x.total)) :=
  (C5_tie_first_in_row_order tieRecords 2023 (by decide) "January" (by decide)).1 (by decide)

/-- C6: when every count cell converts, the load completes no matter what
the date texts are — each row yields exactly one record, an unparseable
date text becoming `date = none` — and every such record is excluded from
the year grouping and from every year and year-month filter. -/
theorem C6_bad_dates_excluded (rows : List RawRow)
    (hc : ∀ row ∈ rows, (parseCount row.busText).isSome
          ∧ (parseCount row.railText).isSome ∧ (parseCount row.totalText).isSome) :
    ∃ recs, loadRecords rows = some recs ∧ recs.length = rows.length ∧
      recs.map (·.date) = rows.map (fun row => parseDate row.dateText) ∧
      groupYearly (recs.filter (fun r => (recYear r).isSome)) = groupYearly recs ∧
      ∀ r ∈ recs, r.date = none →
        (∀ y, r ∉ yearFilter recs y) ∧ (∀ y m, r ∉ yearMonthFilter recs y m) := by
  obtain ⟨recs, h1, h2, h3⟩ := loadRecords_total rows hc
  refine ⟨recs, h1, h2, h3, groupYearly_filter_isSome recs, ?_⟩
  intro r _ hd
  have hyr : recYear r = none := by rw [recYear, hd]; rfl
  constructor
  · intro y hmem
    have h := ((mem_yearFilter recs y r).mp hmem).2
    rw [hyr] at h
    exact Option.noConfusion h
  · intro y m hmem
    have h := ((mem_yearMonthFilter recs y m r).mp hmem).2.1
    rw [hyr] at h
    exact Option.noConfusion h

/-- Closed instance of C6: the load of a table with one good row and one
bad-date row completes and excludes the bad-date record. -/
theorem C6_witness :
    ∃ recs, loadRecords sampleRows = some recs ∧ recs.length = sampleRows.length ∧
      recs.map (·.date) = sampleRows.map (fun row => parseDate row.dateText) ∧
      groupYearly (recs.filter (fun r => (recYear r).isSome)) = groupYearly recs ∧
      ∀ r ∈ recs, r.date = none →
        (∀ y, r ∉ yearFilter recs y) ∧ (∀ y m, r ∉ yearMonthFilter recs y m) :=
  C6_bad_dates_excluded sampleRows (by decide)

/-- C7: when the holiday table's dates are distinct (as they are for the
dict-built `holiday_data`), enrichment keeps one record per input record
with its date unchanged — so one record per distinct date still holds —
sets `Holiday_Name` to the holiday-table lookup of the record's date
(present iff the date matches a holiday entry), and sets `Holiday` to
"Yes" exactly when `Holiday_Name` is present. -/
theorem C7_enrichment_shape (records : List Record) (hl : List (Date × String))
    (hnd : (hl.map Prod.fst).Nodup) :
    (enrichWithHolidays hl records).length = records.length ∧
    (enrichWithHolidays hl records).map (·.date) = records.map (·.date) ∧
    ((records.map (·.date)).Nodup → ((enrichWithHolidays hl records).map (·.date)).Nodup) ∧
    ∀ r ∈ enrichWithHolidays hl records,
      r.holidayName = lookupHoliday hl r.date ∧
      (r.holidayName.isSome ↔ ∃ d, r.date = some d ∧ d ∈ hl.map Prod.fst) ∧
      (r.holiday = "Yes" ↔ r.holidayName.isSome) := by
  have hmap : (enrichWithHolidays hl records).map (·.date) = records.map (·.date) := by
    rw [enrich_eq_map hl records hnd, List.map_map]
    apply List.map_congr_left
    intro r _
    rfl
  refine ⟨by rw [enrich_eq_map hl records hnd]; simp, hmap, fun h => hmap ▸ h, ?_⟩
  intro r hr
  rw [enrich_eq_map hl records hnd] at hr
  obtain ⟨r0, _, rfl⟩ := List.mem_map.mp hr
  refine ⟨rfl, ?_, ?_⟩
  · rw [show (enrichOne hl r0).holidayName = lookupHoliday hl r0.date from rfl,
        show (enrichOne hl r0).date = r0.date from rfl]
    exact lookupHoliday_isSome hl r0.date
  · rw [show (enrichOne hl r0).holidayName = lookupHoliday hl r0.date from rfl]
    rcases h : lookupHoliday hl r0.date with _ | nm
    · rw [show (enrichOne hl r0).holiday
            = if (lookupHoliday hl r0.date).isSome then "Yes" else "No" from rfl, h]
      simp
    · rw [show (enrichOne hl r0).holiday
            = if (lookupHoliday hl r0.date).isSome then "Yes" else "No" from rfl, h]
      simp

/-- Closed instance of C7 at the sample data and one-entry holiday table. -/
theorem C7_witness :
    (enrichWithHolidays sampleHolidays sampleRecords).length = sampleRecords.length ∧
    (enrichWithHolidays sampleHolidays sampleRecords).map (·.date)
        = sampleRecords.map (·.date) ∧
    ((sampleRecords.map (·.date)).Nodup
        → ((enrichWithHolidays sampleHolidays sampleRecords).map (·.date)).Nodup) ∧
    ∀ r ∈ enrichWithHolidays sampleHolidays sampleRecords,
      r.holidayName = lookupHoliday sampleHolidays r.date ∧
      (r.holidayName.isSome ↔ ∃ d, r.date = some d ∧ d ∈ sampleHolidays.map Prod.fst) ∧
      (r.holiday = "Yes" ↔ r.holidayName.isSome) :=
  C7_enrichment_shape sampleRecords sampleHolidays (by decide)

/-- C8 counterexample: the residual "-5" is not a valid non-negative
integer, yet the count parser accepts it and yields the negative value -5
instead of failing. -/
theorem C8_counterexample :
    parseCount "-5" = some (-5) ∧ (-5 : Int) < 0 := by
  refine ⟨by rfl, by decide⟩

/-- C8 amended: count parsing strips comma group separators and then
converts — any two texts with equal residuals parse identically — and it
fails exactly when the residual is not an optionally signed non-empty digit
string; in particular non-numeric residuals are rejected, but negative
residuals are accepted (as negative integers) rather than rejected. -/
theorem C8_comma_stripping (s t : String) (hst : stripCommas s = stripCommas t) :
    parseCount s = parseCount t ∧
    (parseCount s = none ↔ isSignedIntString (stripCommas s) = false) :=
  ⟨by rw [parseCount, parseCount, hst], parseCount_none_iff s⟩

/-- Closed instance of C8 (amended): "12,345" and "12345" parse alike. -/
theorem C8_witness :
    parseCount "12,345" = parseCount "12345" ∧
    (parseCount "12,345" = none ↔ isSignedIntString (stripCommas "12,345") = false) :=
  C8_comma_stripping "12,345" "12345" (by rfl)

/-- C9: enrichment is idempotent when the holiday table's dates are
distinct: a second application to an already-enriched record set returns
the identical record set, in particular the same `Holiday`/`Holiday_Name`
values on every record. -/
theorem C9_enrich_idempotent (records : List Record) (hl : List (Date × String))
    (hnd : (hl.map Prod.fst).Nodup) :
    enrichWithHolidays hl (enrichWithHolidays hl records)
      = enrichWithHolidays hl records := by
  rw [enrich_eq_map hl records hnd, enrich_eq_map hl _ hnd, List.map_map]
  apply List.map_congr_left
  intro r _
  exact enrichOne_idem hl r

/-- Closed instance of C9 at the sample data. -/
theorem C9_witness :
    enrichWithHolidays sampleHolidays (enrichWithHolidays sampleHolidays sampleRecords)
      = enrichWithHolidays sampleHolidays sampleRecords :=
  C9_enrich_idempotent sampleRecords sampleHolidays (by decide)
